import Mathlib

/-!
# Verification of the prediction-pump bonding-curve pricing engine

Shallow embedding of `programs/prediction-pump/src/bonding_curve.rs`.

All `u64` quantities are modelled as `Nat`; Rust's checked arithmetic
(`checked_mul`, `checked_div`, `checked_add`, `checked_sub`) is modelled by
`Except`-valued operations that fail with `MathOverflow` exactly when the Rust
operation returns `None` (the source maps every `None` to `MathOverflow`).
Plain (unchecked) `u64` addition and multiplication in the source are modelled
by wrapping arithmetic modulo `2^64`, the release-mode Rust semantics.
`u64::saturating_sub` coincides with truncated `Nat` subtraction.
-/

set_option autoImplicit false

instance {ε α : Type} [DecidableEq ε] [DecidableEq α] : DecidableEq (Except ε α) :=
  fun x y =>
    match x, y with
    | .ok a, .ok b =>
      match decEq a b with
      | .isTrue h => .isTrue (h ▸ rfl)
      | .isFalse h => .isFalse fun hh => h (Except.ok.inj hh)
    | .error a, .error b =>
      match decEq a b with
      | .isTrue h => .isTrue (h ▸ rfl)
      | .isFalse h => .isFalse fun hh => h (Except.error.inj hh)
    | .ok _, .error _ => .isFalse fun hh => Except.noConfusion hh
    | .error _, .ok _ => .isFalse fun hh => Except.noConfusion hh

/-- 2^64, the modulus of Rust `u64` arithmetic. -/
def U64 : Nat := 18446744073709551616

/-- The variants of `PredictionPumpError` used by the bonding-curve engine. -/
inductive PPError where
  | InvalidPrice
  | InvalidMaxSupply
  | InvalidCurveParams
  | FeeTooHigh
  | MathOverflow
deriving DecidableEq, Repr

/-- `BondingCurveParams` from `lib.rs`: `initial_price : u64`,
`curve_steepness : u64`, `max_supply : u64`, `fee_rate : u16`. -/
structure BondingCurveParams where
  initial_price : Nat
  curve_steepness : Nat
  max_supply : Nat
  fee_rate : Nat
deriving DecidableEq, Repr

/-- Rust `u64::checked_mul`, with `None` mapped to `MathOverflow`. -/
def checked_mul (a b : Nat) : Except PPError Nat :=
  if a * b < U64 then .ok (a * b) else .error .MathOverflow

/-- Rust `u64::checked_div`, with `None` (divisor zero) mapped to `MathOverflow`. -/
def checked_div (a b : Nat) : Except PPError Nat :=
  if b = 0 then .error .MathOverflow else .ok (a / b)

/-- Rust `u64::checked_add`, with `None` mapped to `MathOverflow`. -/
def checked_add (a b : Nat) : Except PPError Nat :=
  if a + b < U64 then .ok (a + b) else .error .MathOverflow

/-- Rust `u64::checked_sub`, with `None` mapped to `MathOverflow`. -/
def checked_sub (a b : Nat) : Except PPError Nat :=
  if b ≤ a then .ok (a - b) else .error .MathOverflow

/-- Plain (unchecked) `u64` addition: wraps modulo `2^64`. -/
def wrap_add (a b : Nat) : Nat := (a + b) % U64

/-- Plain (unchecked) `u64` multiplication: wraps modulo `2^64`. -/
def wrap_mul (a b : Nat) : Nat := (a * b) % U64

/-- `BondingCurve::price_at_supply` (bonding_curve.rs lines 68-94).
`price = initial_price * (1 + supply / curve_steepness)^2` in scale-10000
fixed point; every step checked. -/
def price_at_supply (p : BondingCurveParams) (supply : Nat) : Except PPError Nat :=
  if supply = 0 then
    .ok p.initial_price
  else do
    let sm ← checked_mul supply 10000
    let supply_ratio ← checked_div sm p.curve_steepness
    let multiplier ← checked_add 10000 supply_ratio
    let mm ← checked_mul multiplier multiplier
    let multiplier_squared ← checked_div mm 10000
    let im ← checked_mul p.initial_price multiplier_squared
    checked_div im 10000

/-- `BondingCurve::calculate_buy_price` (bonding_curve.rs lines 10-35).
The supply-cap addition `current_supply + amount` (lines 16 and 20) and the
endpoint addition `start_price + end_price` (line 23) are plain `u64`
additions in the source, modelled by `wrap_add`. -/
def calculate_buy_price (p : BondingCurveParams) (current_supply amount : Nat) :
    Except PPError Nat :=
  if ¬ amount > 0 then .error .InvalidPrice
  else if ¬ wrap_add current_supply amount ≤ p.max_supply then .error .InvalidMaxSupply
  else do
    let start_price ← price_at_supply p current_supply
    let end_price ← price_at_supply p (wrap_add current_supply amount)
    let average_price := wrap_add start_price end_price / 2
    let total_cost ← checked_mul average_price amount
    let f ← checked_mul total_cost p.fee_rate
    let fee ← checked_div f 10000
    checked_add total_cost fee

/-- `BondingCurve::calculate_sell_price` (bonding_curve.rs lines 39-64).
`current_supply.saturating_sub(amount)` is truncated `Nat` subtraction;
`start_price + end_price` (line 52) is a plain `u64` addition. -/
def calculate_sell_price (p : BondingCurveParams) (current_supply amount : Nat) :
    Except PPError Nat :=
  if ¬ amount > 0 then .error .InvalidPrice
  else if ¬ amount ≤ current_supply then .error .InvalidMaxSupply
  else do
    let start_price ← price_at_supply p (current_supply - amount)
    let end_price ← price_at_supply p current_supply
    let average_price := wrap_add start_price end_price / 2
    let total_payout ← checked_mul average_price amount
    let f ← checked_mul total_payout p.fee_rate
    let fee ← checked_div f 10000
    checked_sub total_payout fee

/-- The `u64` slippage value computed by `BondingCurve::calculate_slippage`
(bonding_curve.rs lines 98-135) just before the `as u16` narrowing casts on
lines 124 and 133. -/
def calculate_slippage_u64 (p : BondingCurveParams) (current_supply amount : Nat)
    (is_buy : Bool) : Except PPError Nat := do
  let current_price ← price_at_supply p current_supply
  let actual_price ←
    if is_buy then do
      let q ← calculate_buy_price p current_supply amount
      checked_div q amount
    else do
      let q ← calculate_sell_price p current_supply amount
      checked_div q amount
  if current_price ≤ actual_price then do
    let d ← checked_sub actual_price current_price
    let m ← checked_mul d 10000
    checked_div m current_price
  else do
    let d ← checked_sub current_price actual_price
    let m ← checked_mul d 10000
    checked_div m current_price

/-- `BondingCurve::calculate_slippage` (bonding_curve.rs lines 98-135).
The `u16` return value: the `u64` slippage is narrowed by `as u16`,
i.e. reduced modulo `2^16`. -/
def calculate_slippage (p : BondingCurveParams) (current_supply amount : Nat)
    (is_buy : Bool) : Except PPError Nat := do
  let current_price ← price_at_supply p current_supply
  let actual_price ←
    if is_buy then do
      let q ← calculate_buy_price p current_supply amount
      checked_div q amount
    else do
      let q ← calculate_sell_price p current_supply amount
      checked_div q amount
  if current_price ≤ actual_price then do
    let d ← checked_sub actual_price current_price
    let m ← checked_mul d 10000
    let s ← checked_div m current_price
    pure (s % 65536)
  else do
    let d ← checked_sub current_price actual_price
    let m ← checked_mul d 10000
    let s ← checked_div m current_price
    pure (s % 65536)

/-- `BondingCurve::validate_params` (bonding_curve.rs lines 138-148).
The five `require!` checks in source order; note `curve_steepness >= 1000`
is the last check (line 145), after the fee check. -/
def validate_params (p : BondingCurveParams) : Except PPError Unit :=
  if ¬ p.initial_price > 0 then .error .InvalidPrice
  else if ¬ p.curve_steepness > 0 then .error .InvalidCurveParams
  else if ¬ p.max_supply > 0 then .error .InvalidMaxSupply
  else if ¬ p.fee_rate ≤ 1000 then .error .FeeTooHigh
  else if ¬ p.curve_steepness ≥ 1000 then .error .InvalidCurveParams
  else .ok ()

/-- `BondingCurve::calculate_market_cap` (bonding_curve.rs lines 151-172).
`2 * params.curve_steepness` (line 160) is a plain `u64` multiplication,
modelled by `wrap_mul`. -/
def calculate_market_cap (p : BondingCurveParams) (supply : Nat) :
    Except PPError Nat :=
  if supply = 0 then
    .ok 0
  else do
    let sm ← checked_mul supply 10000
    let supply_factor ← checked_div sm (wrap_mul 2 p.curve_steepness)
    let multiplier ← checked_add 10000 supply_factor
    let im ← checked_mul p.initial_price supply
    let imm ← checked_mul im multiplier
    checked_div imm 10000

/-- The parameter record used by the source's own tests:
`initial_price=1000, curve_steepness=10000, max_supply=1_000_000, fee_rate=100`. -/
def testParams : BondingCurveParams :=
  { initial_price := 1000, curve_steepness := 10000,
    max_supply := 1000000, fee_rate := 100 }

/-- The scaled ratio `supply * 10000 / curve_steepness` (bonding_curve.rs lines 75-78). -/
def ratioF (p : BondingCurveParams) (s : Nat) : Nat := s * 10000 / p.curve_steepness

/-- The multiplier `10000 + ratio` (bonding_curve.rs line 80). -/
def multF (p : BondingCurveParams) (s : Nat) : Nat := 10000 + ratioF p s

/-- The squared multiplier `multiplier * multiplier / 10000` (bonding_curve.rs lines 84-87). -/
def msqF (p : BondingCurveParams) (s : Nat) : Nat := multF p s * multF p s / 10000

/-- The mathematical value computed by `price_at_supply` when no step fails. -/
def priceF (p : BondingCurveParams) (s : Nat) : Nat :=
  if s = 0 then p.initial_price else p.initial_price * msqF p s / 10000

/-- Exactly when every checked step of `price_at_supply` succeeds. -/
def priceDefined (p : BondingCurveParams) (s : Nat) : Prop :=
  s = 0 ∨ (s * 10000 < U64 ∧ p.curve_steepness ≠ 0 ∧ multF p s < U64 ∧
    multF p s * multF p s < U64 ∧ p.initial_price * msqF p s < U64)

/-! ## Characterization of the checked operations and of `price_at_supply` -/

theorem exbind_ok {α β : Type} {x : Except PPError α} {f : α → Except PPError β} {v : β} :
    (x >>= f) = .ok v ↔ ∃ a, x = .ok a ∧ f a = .ok v := by
  cases x <;> simp [Bind.bind, Except.bind]

theorem checked_mul_ok {a b v : Nat} :
    checked_mul a b = .ok v ↔ a * b < U64 ∧ v = a * b := by
  unfold checked_mul
  split <;> rename_i h
  · exact ⟨fun hv => ⟨h, (Except.ok.inj hv).symm⟩, fun hv => by rw [hv.2]⟩
  · exact ⟨fun hv => absurd hv (fun hh => Except.noConfusion hh), fun hv => absurd hv.1 h⟩

theorem checked_div_ok {a b v : Nat} :
    checked_div a b = .ok v ↔ b ≠ 0 ∧ v = a / b := by
  unfold checked_div
  split <;> rename_i h
  · exact ⟨fun hv => absurd hv (fun hh => Except.noConfusion hh), fun hv => absurd h hv.1⟩
  · exact ⟨fun hv => ⟨h, (Except.ok.inj hv).symm⟩, fun hv => by rw [hv.2]⟩

theorem checked_add_ok {a b v : Nat} :
    checked_add a b = .ok v ↔ a + b < U64 ∧ v = a + b := by
  unfold checked_add
  split <;> rename_i h
  · exact ⟨fun hv => ⟨h, (Except.ok.inj hv).symm⟩, fun hv => by rw [hv.2]⟩
  · exact ⟨fun hv => absurd hv (fun hh => Except.noConfusion hh), fun hv => absurd hv.1 h⟩

theorem checked_sub_ok {a b v : Nat} :
    checked_sub a b = .ok v ↔ b ≤ a ∧ v = a - b := by
  unfold checked_sub
  split <;> rename_i h
  · exact ⟨fun hv => ⟨h, (Except.ok.inj hv).symm⟩, fun hv => by rw [hv.2]⟩
  · exact ⟨fun hv => absurd hv (fun hh => Except.noConfusion hh), fun hv => absurd hv.1 h⟩

theorem checked_mul_err {a b : Nat} {e : PPError} :
    checked_mul a b = .error e → e = .MathOverflow := by
  unfold checked_mul
  split
  · exact fun hv => absurd hv (fun hh => Except.noConfusion hh)
  · exact fun hv => (Except.error.inj hv).symm

theorem checked_div_err {a b : Nat} {e : PPError} :
    checked_div a b = .error e → e = .MathOverflow := by
  unfold checked_div
  split
  · exact fun hv => (Except.error.inj hv).symm
  · exact fun hv => absurd hv (fun hh => Except.noConfusion hh)

theorem checked_add_err {a b : Nat} {e : PPError} :
    checked_add a b = .error e → e = .MathOverflow := by
  unfold checked_add
  split
  · exact fun hv => absurd hv (fun hh => Except.noConfusion hh)
  · exact fun hv => (Except.error.inj hv).symm

theorem price_at_supply_ok_iff {p : BondingCurveParams} {s v : Nat} :
    price_at_supply p s = .ok v ↔ priceDefined p s ∧ v = priceF p s := by
  unfold price_at_supply priceDefined priceF
  split <;> rename_i hs
  · simp [hs, eq_comm]
  · simp only [exbind_ok, checked_mul_ok, checked_div_ok, checked_add_ok, hs, false_or,
      if_neg hs, ratioF, multF, msqF]
    constructor
    · rintro ⟨sm, ⟨h1, rfl⟩, sr, ⟨h2, rfl⟩, m, ⟨h3, rfl⟩, mm, ⟨h4, rfl⟩, ms, ⟨-, rfl⟩,
        im, ⟨h5, rfl⟩, h6, rfl⟩
      exact ⟨⟨h1, h2, h3, h4, h5⟩, rfl⟩
    · rintro ⟨⟨h1, h2, h3, h4, h5⟩, rfl⟩
      exact ⟨_, ⟨h1, rfl⟩, _, ⟨h2, rfl⟩, _, ⟨h3, rfl⟩, _, ⟨h4, rfl⟩, _,
        ⟨by decide, rfl⟩, _, ⟨h5, rfl⟩, by decide, rfl⟩

theorem price_at_supply_err {p : BondingCurveParams} {s : Nat} {e : PPError}
    (h : price_at_supply p s = .error e) : e = .MathOverflow := by
  unfold price_at_supply at h
  split at h
  · exact absurd h (fun hh => Except.noConfusion hh)
  · rcases hm : checked_mul s 10000 with e1 | sm
    · rw [hm] at h; simp only [Bind.bind, Except.bind] at h
      exact (Except.error.inj h) ▸ checked_mul_err hm
    · rw [hm] at h; simp only [Bind.bind, Except.bind] at h
      rcases hd : checked_div sm p.curve_steepness with e1 | sr
      · rw [hd] at h; simp only [Bind.bind, Except.bind] at h
        exact (Except.error.inj h) ▸ checked_div_err hd
      · rw [hd] at h; simp only [Bind.bind, Except.bind] at h
        rcases ha : checked_add 10000 sr with e1 | m
        · rw [ha] at h; simp only [Bind.bind, Except.bind] at h
          exact (Except.error.inj h) ▸ checked_add_err ha
        · rw [ha] at h; simp only [Bind.bind, Except.bind] at h
          rcases hm2 : checked_mul m m with e1 | mm
          · rw [hm2] at h; simp only [Bind.bind, Except.bind] at h
            exact (Except.error.inj h) ▸ checked_mul_err hm2
          · rw [hm2] at h; simp only [Bind.bind, Except.bind] at h
            rcases hd2 : checked_div mm 10000 with e1 | ms
            · rw [hd2] at h; simp only [Bind.bind, Except.bind] at h
              exact (Except.error.inj h) ▸ checked_div_err hd2
            · rw [hd2] at h; simp only [Bind.bind, Except.bind] at h
              rcases hm3 : checked_mul p.initial_price ms with e1 | im
              · rw [hm3] at h; simp only [Bind.bind, Except.bind] at h
                exact (Except.error.inj h) ▸ checked_mul_err hm3
              · rw [hm3] at h; simp only [Bind.bind, Except.bind] at h
                exact checked_div_err h

/-! ## Monotonicity and bounds for the price formula -/

theorem multF_ge {p : BondingCurveParams} {s : Nat} : 10000 ≤ multF p s :=
  Nat.le_add_right 10000 (ratioF p s)

theorem msqF_ge {p : BondingCurveParams} {s : Nat} : 10000 ≤ msqF p s := by
  unfold msqF
  exact (Nat.le_div_iff_mul_le (by decide)).mpr (Nat.mul_le_mul multF_ge multF_ge)

theorem ip_le_scaled {p : BondingCurveParams} {s : Nat} :
    p.initial_price ≤ p.initial_price * msqF p s / 10000 :=
  (Nat.le_div_iff_mul_le (by decide)).mpr (Nat.mul_le_mul (le_refl _) msqF_ge)

theorem priceF_ge_ip {p : BondingCurveParams} {s : Nat} :
    p.initial_price ≤ priceF p s := by
  unfold priceF
  split
  · exact le_refl _
  · exact ip_le_scaled

theorem priceF_mono {p : BondingCurveParams} {s1 s2 : Nat} (h : s1 ≤ s2) :
    priceF p s1 ≤ priceF p s2 := by
  unfold priceF
  split <;> rename_i h1
  · split
    · exact le_refl _
    · exact ip_le_scaled
  · have h2 : ¬ s2 = 0 := by omega
    rw [if_neg h2]
    have hr : ratioF p s1 ≤ ratioF p s2 :=
      Nat.div_le_div_right (Nat.mul_le_mul h (le_refl 10000))
    have hm : multF p s1 ≤ multF p s2 := Nat.add_le_add_left hr 10000
    have hq : msqF p s1 ≤ msqF p s2 :=
      Nat.div_le_div_right (Nat.mul_le_mul hm hm)
    exact Nat.div_le_div_right (Nat.mul_le_mul (le_refl _) hq)

theorem price_ok_mono {p : BondingCurveParams} {s1 s2 v1 v2 : Nat} (h : s1 ≤ s2)
    (h1 : price_at_supply p s1 = .ok v1) (h2 : price_at_supply p s2 = .ok v2) :
    v1 ≤ v2 := by
  obtain ⟨-, rfl⟩ := price_at_supply_ok_iff.mp h1
  obtain ⟨-, rfl⟩ := price_at_supply_ok_iff.mp h2
  exact priceF_mono h

theorem price_ok_ge_ip {p : BondingCurveParams} {s v : Nat}
    (h : price_at_supply p s = .ok v) : p.initial_price ≤ v := by
  obtain ⟨-, rfl⟩ := price_at_supply_ok_iff.mp h
  exact priceF_ge_ip

theorem price_ok_scaled_bound {p : BondingCurveParams} {s v : Nat}
    (h : price_at_supply p s = .ok v) (hs : s ≠ 0) : 10000 * v < U64 := by
  obtain ⟨hd, rfl⟩ := price_at_supply_ok_iff.mp h
  rcases hd with hd | ⟨-, -, -, -, h5⟩
  · exact absurd hd hs
  · unfold priceF
    rw [if_neg hs]
    calc 10000 * (p.initial_price * msqF p s / 10000)
        = p.initial_price * msqF p s / 10000 * 10000 := Nat.mul_comm _ _
      _ ≤ p.initial_price * msqF p s := Nat.div_mul_le_self _ _
      _ < U64 := h5

theorem price_ok_ip_bound {p : BondingCurveParams} {s v : Nat}
    (h : price_at_supply p s = .ok v) (hs : s ≠ 0) :
    10000 * p.initial_price < U64 := by
  obtain ⟨hd, -⟩ := price_at_supply_ok_iff.mp h
  rcases hd with hd | ⟨-, -, -, -, h5⟩
  · exact absurd hd hs
  · calc 10000 * p.initial_price = p.initial_price * 10000 := Nat.mul_comm _ _
      _ ≤ p.initial_price * msqF p s := Nat.mul_le_mul (le_refl _) msqF_ge
      _ < U64 := h5

/-- Whenever two `price_at_supply` calls (one at a nonzero supply) both
succeed, the sum of the two prices does not overflow `u64`; hence the plain
addition `start_price + end_price` in the trade quoters never actually wraps. -/
theorem price_ok_sum_lt {p : BondingCurveParams} {s1 s2 v1 v2 : Nat}
    (h1 : price_at_supply p s1 = .ok v1) (h2 : price_at_supply p s2 = .ok v2)
    (hs2 : s2 ≠ 0) : v1 + v2 < U64 := by
  have b2 := price_ok_scaled_bound h2 hs2
  by_cases hs1 : s1 = 0
  · subst hs1
    obtain ⟨-, rfl⟩ := price_at_supply_ok_iff.mp h1
    have b1 := price_ok_ip_bound h2 hs2
    unfold priceF
    rw [if_pos rfl]
    omega
  · have b1 := price_ok_scaled_bound h1 hs1
    omega

/-! ## Characterization of the trade quoters -/

theorem buy_ok_iff {p : BondingCurveParams} {cs a v : Nat} :
    calculate_buy_price p cs a = .ok v ↔
      0 < a ∧ wrap_add cs a ≤ p.max_supply ∧
      ∃ P E, price_at_supply p cs = .ok P ∧
        price_at_supply p (wrap_add cs a) = .ok E ∧
        wrap_add P E / 2 * a < U64 ∧
        wrap_add P E / 2 * a * p.fee_rate < U64 ∧
        wrap_add P E / 2 * a + wrap_add P E / 2 * a * p.fee_rate / 10000 < U64 ∧
        v = wrap_add P E / 2 * a + wrap_add P E / 2 * a * p.fee_rate / 10000 := by
  unfold calculate_buy_price
  split <;> rename_i h1
  · constructor
    · intro hh; exact absurd hh (fun hc => Except.noConfusion hc)
    · rintro ⟨ha, -⟩; exact absurd ha h1
  · rw [not_not] at h1
    split <;> rename_i h2
    · constructor
      · intro hh; exact absurd hh (fun hc => Except.noConfusion hc)
      · rintro ⟨-, hs, -⟩; exact absurd hs h2
    · rw [not_not] at h2
      simp only [exbind_ok, checked_mul_ok, checked_div_ok, checked_add_ok]
      constructor
      · rintro ⟨P, hP, E, hE, T, ⟨hT, rfl⟩, F, ⟨hF, rfl⟩, fe, ⟨-, rfl⟩, hs, rfl⟩
        exact ⟨h1, h2, P, E, hP, hE, hT, hF, hs, rfl⟩
      · rintro ⟨-, -, P, E, hP, hE, hT, hF, hs, rfl⟩
        exact ⟨P, hP, E, hE, _, ⟨hT, rfl⟩, _, ⟨hF, rfl⟩, _, ⟨by decide, rfl⟩, hs, rfl⟩

theorem sell_ok_iff {p : BondingCurveParams} {cs a v : Nat} :
    calculate_sell_price p cs a = .ok v ↔
      0 < a ∧ a ≤ cs ∧
      ∃ P E, price_at_supply p (cs - a) = .ok P ∧
        price_at_supply p cs = .ok E ∧
        wrap_add P E / 2 * a < U64 ∧
        wrap_add P E / 2 * a * p.fee_rate < U64 ∧
        wrap_add P E / 2 * a * p.fee_rate / 10000 ≤ wrap_add P E / 2 * a ∧
        v = wrap_add P E / 2 * a - wrap_add P E / 2 * a * p.fee_rate / 10000 := by
  unfold calculate_sell_price
  split <;> rename_i h1
  · constructor
    · intro hh; exact absurd hh (fun hc => Except.noConfusion hc)
    · rintro ⟨ha, -⟩; exact absurd ha h1
  · rw [not_not] at h1
    split <;> rename_i h2
    · constructor
      · intro hh; exact absurd hh (fun hc => Except.noConfusion hc)
      · rintro ⟨-, hs, -⟩; exact absurd hs h2
    · rw [not_not] at h2
      simp only [exbind_ok, checked_mul_ok, checked_div_ok, checked_sub_ok]
      constructor
      · rintro ⟨P, hP, E, hE, T, ⟨hT, rfl⟩, F, ⟨hF, rfl⟩, fe, ⟨-, rfl⟩, hs, rfl⟩
        exact ⟨h1, h2, P, E, hP, hE, hT, hF, hs, rfl⟩
      · rintro ⟨-, -, P, E, hP, hE, hT, hF, hs, rfl⟩
        exact ⟨P, hP, E, hE, _, ⟨hT, rfl⟩, _, ⟨hF, rfl⟩, _, ⟨by decide, rfl⟩, hs, rfl⟩

/-- C2: with the test parameters, `price_at_supply 10000 = 4000`,
`calculate_buy_price 0 10000 = 25250000` (trapezoidal average 2500, base cost
25000000, fee 250000), and `calculate_market_cap 10000 = 15000000`. -/
theorem concrete_scenario_values :
    price_at_supply testParams 10000 = .ok 4000 ∧
    calculate_buy_price testParams 0 10000 = .ok 25250000 ∧
    calculate_market_cap testParams 10000 = .ok 15000000 := by
  refine ⟨by decide, by decide, by decide⟩

/-! ## C1: the price formula -/

/-- C1: `price_at_supply` returns `initial_price` exactly at supply 0, and at
positive supply the scaled-integer value
`initial_price * ((10000 + supply*10000/curve_steepness)^2 / 10000) / 10000`,
whenever the steepness is nonzero and no intermediate step overflows `u64`. -/
theorem price_at_supply_formula (p : BondingCurveParams) (s : Nat)
    (hk : 0 < p.curve_steepness)
    (h1 : s * 10000 < U64)
    (h2 : 10000 + s * 10000 / p.curve_steepness < U64)
    (h3 : (10000 + s * 10000 / p.curve_steepness) *
      (10000 + s * 10000 / p.curve_steepness) < U64)
    (h4 : p.initial_price * ((10000 + s * 10000 / p.curve_steepness) *
      (10000 + s * 10000 / p.curve_steepness) / 10000) < U64) :
    price_at_supply p s =
      .ok (if s = 0 then p.initial_price
        else p.initial_price * ((10000 + s * 10000 / p.curve_steepness) *
          (10000 + s * 10000 / p.curve_steepness) / 10000) / 10000) := by
  apply price_at_supply_ok_iff.mpr
  refine ⟨?_, rfl⟩
  by_cases hs : s = 0
  · exact .inl hs
  · exact .inr ⟨h1, by omega, h2, h3, h4⟩

theorem price_at_supply_formula_witness :
    price_at_supply testParams 10000 = .ok 4000 := by
  rw [price_at_supply_formula testParams 10000 (by decide) (by decide) (by decide)
    (by decide) (by decide)]
  decide

/-! ## C3: checked arithmetic and the unchecked operations -/

/-- C3 counterexample: not every arithmetic step is checked.  Two unchecked
steps overflow `u64` without the call failing with `MathOverflow`:
(1) in `calculate_buy_price` the addition `current_supply + amount`
(line 16) is plain: at `current_supply = 1`, `amount = 2^64 - 1` the
mathematical sum `2^64` wraps to `0`, the supply-cap check passes, and the
call succeeds; (2) in `calculate_market_cap` the multiplication
`2 * params.curve_steepness` (line 160) is plain: at the valid steepness
`2^63 + 5` the mathematical product `2^64 + 10` wraps to `10`, and the call
succeeds with 11 where the unwrapped divisor would give 10. -/
theorem unchecked_steps_wrap_cex :
    (U64 ≤ 1 + (U64 - 1) ∧
      calculate_buy_price ⟨1, 1000000000, 10, 0⟩ 1 (U64 - 1) =
        .ok (U64 - 1)) ∧
    (validate_params ⟨10, 9223372036854775813, 100, 0⟩ = .ok () ∧
      U64 ≤ 2 * 9223372036854775813 ∧
      wrap_mul 2 9223372036854775813 = 10 ∧
      calculate_market_cap ⟨10, 9223372036854775813, 100, 0⟩ 1 = .ok 11 ∧
      10 * 1 * (10000 + 1 * 10000 / (2 * 9223372036854775813)) / 10000
        = 10) := by
  refine ⟨⟨by decide, by decide⟩, by decide, by decide, by decide, by decide,
    by decide⟩

/-- C3 amended: every operation performed through a `checked_*` call can only
fail with `MathOverflow`, and in `price_at_supply` — the arithmetic core
shared by all other operations — *every* arithmetic step is checked: the
call returns the formula value when no step overflows (and the steepness is
nonzero) and fails with `MathOverflow` otherwise, with no silent wrap.  Five
plain operations elsewhere escape checking: the supply-bound addition
`current_supply + amount` (lines 16/20) and the endpoint additions
`start_price + end_price` (lines 23/52), which wrap modulo `2^64`
(`price_ok_sum_lt` shows the endpoint additions can never actually wrap when
both price calls succeed); the halving divisions `(start + end) / 2`
(lines 23/52), unchecked but benign (dividing by the nonzero constant 2
cannot fail); and the doubling multiplication `2 * curve_steepness`
(line 160), which wraps.  A wrapped step lets `calculate_buy_price` and
`calculate_market_cap` succeed with silently wrong results (counterexample
above). -/
theorem price_checked_arithmetic (p : BondingCurveParams) (s : Nat) :
    (priceDefined p s → price_at_supply p s = .ok (priceF p s)) ∧
    (¬ priceDefined p s → price_at_supply p s = .error .MathOverflow) := by
  constructor
  · intro hd
    exact price_at_supply_ok_iff.mpr ⟨hd, rfl⟩
  · intro hd
    rcases hres : price_at_supply p s with e | w
    · exact congrArg Except.error (price_at_supply_err hres)
    · exact absurd (price_at_supply_ok_iff.mp hres).1 hd

theorem price_checked_arithmetic_witness :
    price_at_supply testParams 5000 = .ok 2250 ∧
    price_at_supply ⟨1, 0, 1, 0⟩ 1 = .error .MathOverflow :=
  ⟨(price_checked_arithmetic testParams 5000).1 (by unfold priceDefined; decide),
   (price_checked_arithmetic ⟨1, 0, 1, 0⟩ 1).2
     (by unfold priceDefined multF ratioF msqF; decide)⟩

/-! ## C4: trade-quoter preconditions -/

/-- C4 counterexample: the buy-side supply-cap precondition is checked on the
wrapped `u64` sum, not the mathematical sum.  At `current_supply = 1`,
`amount = 2^64 - 1`, `max_supply = 10` the mathematical sum `2^64` exceeds
`max_supply`, yet the call does not fail with `InvalidMaxSupply`. -/
theorem buy_supply_cap_cex :
    0 < U64 - 1 ∧ (10 : Nat) < 1 + (U64 - 1) ∧
    calculate_buy_price ⟨1, 1000000000, 10, 0⟩ 1 (U64 - 1) ≠
      .error .InvalidMaxSupply := by
  refine ⟨by decide, by decide, by decide⟩

/-- C4 amended: `calculate_buy_price` fails with `InvalidPrice` on a zero
amount, and with `InvalidMaxSupply` when the *wrapped* 64-bit sum
`(current_supply + amount) mod 2^64` exceeds `max_supply` (for sums below
`2^64` this is the plain sum); `calculate_sell_price` fails with
`InvalidPrice` on a zero amount and with `InvalidMaxSupply` when the amount
exceeds `current_supply`. -/
theorem trade_quoter_preconditions (p : BondingCurveParams) (cs a : Nat) :
    (a = 0 → calculate_buy_price p cs a = .error .InvalidPrice) ∧
    (0 < a → p.max_supply < wrap_add cs a →
      calculate_buy_price p cs a = .error .InvalidMaxSupply) ∧
    (a = 0 → calculate_sell_price p cs a = .error .InvalidPrice) ∧
    (cs < a → calculate_sell_price p cs a = .error .InvalidMaxSupply) := by
  refine ⟨?_, ?_, ?_, ?_⟩
  · intro ha
    subst ha
    rfl
  · intro ha hmax
    unfold calculate_buy_price
    rw [if_neg (by omega), if_pos (by omega)]
  · intro ha
    subst ha
    rfl
  · intro ha
    unfold calculate_sell_price
    rw [if_neg (by omega), if_pos (by omega)]

theorem trade_quoter_preconditions_witness :
    calculate_buy_price testParams 1000 0 = .error .InvalidPrice ∧
    calculate_buy_price testParams 999990 20 = .error .InvalidMaxSupply ∧
    calculate_sell_price testParams 1000 0 = .error .InvalidPrice ∧
    calculate_sell_price testParams 100 200 = .error .InvalidMaxSupply :=
  ⟨(trade_quoter_preconditions testParams 1000 0).1 rfl,
   (trade_quoter_preconditions testParams 999990 20).2.1 (by decide) (by decide),
   (trade_quoter_preconditions testParams 1000 0).2.2.1 rfl,
   (trade_quoter_preconditions testParams 100 200).2.2.2 (by decide)⟩

/-! ## C8: validation order -/

/-- C8 counterexample: the claim puts the `curve_steepness >= 1000` check
second, before the `max_supply` check, so it predicts `InvalidCurveParams`
for `{initial_price=1, curve_steepness=500, max_supply=0, fee_rate=0}`; the
code checks `curve_steepness >= 1000` last (line 145) and reports
`InvalidMaxSupply` here. -/
theorem validate_order_cex :
    validate_params ⟨1, 500, 0, 0⟩ = .error .InvalidMaxSupply ∧
    PPError.InvalidMaxSupply ≠ PPError.InvalidCurveParams := by
  refine ⟨by decide, by decide⟩

/-- C8 amended: `validate_params` checks, in order, `initial_price > 0`
(`InvalidPrice`), `curve_steepness > 0` (`InvalidCurveParams`),
`max_supply > 0` (`InvalidMaxSupply`), `fee_rate <= 1000` (`FeeTooHigh`) and
finally `curve_steepness >= 1000` (`InvalidCurveParams`); it accepts
`fee_rate = 1000` and rejects `1001`, accepts `curve_steepness = 1000` and
rejects `999`. -/
theorem validate_params_order (p : BondingCurveParams) :
    (p.initial_price = 0 → validate_params p = .error .InvalidPrice) ∧
    (0 < p.initial_price → p.curve_steepness = 0 →
      validate_params p = .error .InvalidCurveParams) ∧
    (0 < p.initial_price → 0 < p.curve_steepness → p.max_supply = 0 →
      validate_params p = .error .InvalidMaxSupply) ∧
    (0 < p.initial_price → 0 < p.curve_steepness → 0 < p.max_supply →
      1000 < p.fee_rate → validate_params p = .error .FeeTooHigh) ∧
    (0 < p.initial_price → 0 < p.curve_steepness → 0 < p.max_supply →
      p.fee_rate ≤ 1000 → p.curve_steepness < 1000 →
      validate_params p = .error .InvalidCurveParams) ∧
    (0 < p.initial_price → 1000 ≤ p.curve_steepness → 0 < p.max_supply →
      p.fee_rate ≤ 1000 → validate_params p = .ok ()) ∧
    validate_params ⟨1, 1000, 1, 1000⟩ = .ok () ∧
    validate_params ⟨1, 1000, 1, 1001⟩ = .error .FeeTooHigh ∧
    validate_params ⟨1, 999, 1, 0⟩ = .error .InvalidCurveParams := by
  refine ⟨?_, ?_, ?_, ?_, ?_, ?_, by decide, by decide, by decide⟩
  · intro h
    unfold validate_params
    rw [if_pos (by omega)]
  · intro h1 h2
    unfold validate_params
    rw [if_neg (by omega), if_pos (by omega)]
  · intro h1 h2 h3
    unfold validate_params
    rw [if_neg (by omega), if_neg (by omega), if_pos (by omega)]
  · intro h1 h2 h3 h4
    unfold validate_params
    rw [if_neg (by omega), if_neg (by omega), if_neg (by omega), if_pos (by omega)]
  · intro h1 h2 h3 h4 h5
    unfold validate_params
    rw [if_neg (by omega), if_neg (by omega), if_neg (by omega), if_neg (by omega),
      if_pos (by omega)]
  · intro h1 h2 h3 h4
    unfold validate_params
    rw [if_neg (by omega), if_neg (by omega), if_neg (by omega), if_neg (by omega),
      if_neg (by omega)]

theorem validate_params_order_witness :
    validate_params ⟨0, 10000, 5, 0⟩ = .error .InvalidPrice ∧
    validate_params ⟨5, 0, 5, 0⟩ = .error .InvalidCurveParams ∧
    validate_params ⟨5, 500, 0, 0⟩ = .error .InvalidMaxSupply ∧
    validate_params ⟨5, 500, 5, 2000⟩ = .error .FeeTooHigh ∧
    validate_params ⟨5, 500, 5, 100⟩ = .error .InvalidCurveParams ∧
    validate_params testParams = .ok () :=
  ⟨(validate_params_order ⟨0, 10000, 5, 0⟩).1 rfl,
   (validate_params_order ⟨5, 0, 5, 0⟩).2.1 (by decide) rfl,
   (validate_params_order ⟨5, 500, 0, 0⟩).2.2.1 (by decide) (by decide) rfl,
   (validate_params_order ⟨5, 500, 5, 2000⟩).2.2.2.1 (by decide) (by decide)
     (by decide) (by decide),
   (validate_params_order ⟨5, 500, 5, 100⟩).2.2.2.2.1 (by decide) (by decide)
     (by decide) (by decide) (by decide),
   (validate_params_order testParams).2.2.2.2.2.1 (by decide) (by decide)
     (by decide) (by decide)⟩

/-! ## C6: price is non-decreasing in supply -/

theorem validate_ok_iff {p : BondingCurveParams} :
    validate_params p = .ok () ↔
      0 < p.initial_price ∧ 1000 ≤ p.curve_steepness ∧ 0 < p.max_supply ∧
      p.fee_rate ≤ 1000 := by
  unfold validate_params
  split <;> rename_i a1
  · constructor
    · intro hh; exact absurd hh (fun hc => Except.noConfusion hc)
    · rintro ⟨h, -⟩; exact absurd h a1
  · split <;> rename_i a2
    · constructor
      · intro hh; exact absurd hh (fun hc => Except.noConfusion hc)
      · rintro ⟨-, h, -⟩; exact absurd a2 (by omega)
    · split <;> rename_i a3
      · constructor
        · intro hh; exact absurd hh (fun hc => Except.noConfusion hc)
        · rintro ⟨-, -, h, -⟩; exact absurd h a3
      · split <;> rename_i a4
        · constructor
          · intro hh; exact absurd hh (fun hc => Except.noConfusion hc)
          · rintro ⟨-, -, -, h⟩; exact absurd h a4
        · split <;> rename_i a5
          · constructor
            · intro hh; exact absurd hh (fun hc => Except.noConfusion hc)
            · rintro ⟨-, h, -⟩; exact absurd a5 (by omega)
          · constructor
            · intro _; exact ⟨by omega, by omega, by omega, by omega⟩
            · intro _; rfl

/-- C6: for every valid parameter record and supplies `s1 ≤ s2` at which
`price_at_supply` succeeds, the returned price at `s1` is at most the
returned price at `s2`. -/
theorem price_nondecreasing (p : BondingCurveParams) (s1 s2 v1 v2 : Nat)
    (hval : validate_params p = .ok ()) (h12 : s1 ≤ s2)
    (h1 : price_at_supply p s1 = .ok v1)
    (h2 : price_at_supply p s2 = .ok v2) : v1 ≤ v2 :=
  price_ok_mono h12 h1 h2

theorem price_nondecreasing_witness : (1000 : Nat) ≤ 4000 :=
  price_nondecreasing testParams 0 10000 1000 4000 rfl (by decide) rfl rfl

/-! ## C7: market cap at zero and strict monotonicity -/

theorem mc_ok_iff {p : BondingCurveParams} {s v : Nat} :
    calculate_market_cap p s = .ok v ↔
      (s = 0 ∧ v = 0) ∨
      (s ≠ 0 ∧ s * 10000 < U64 ∧ wrap_mul 2 p.curve_steepness ≠ 0 ∧
        10000 + s * 10000 / wrap_mul 2 p.curve_steepness < U64 ∧
        p.initial_price * s < U64 ∧
        p.initial_price * s *
          (10000 + s * 10000 / wrap_mul 2 p.curve_steepness) < U64 ∧
        v = p.initial_price * s *
          (10000 + s * 10000 / wrap_mul 2 p.curve_steepness) / 10000) := by
  unfold calculate_market_cap
  split <;> rename_i hs
  · simp [hs, eq_comm]
  · simp only [exbind_ok, checked_mul_ok, checked_div_ok, checked_add_ok]
    constructor
    · rintro ⟨sm, ⟨b1, rfl⟩, sf, ⟨b2, rfl⟩, m, ⟨b3, rfl⟩, im, ⟨b4, rfl⟩,
        imm, ⟨b5, rfl⟩, b6, rfl⟩
      exact .inr ⟨hs, b1, b2, b3, b4, b5, rfl⟩
    · rintro (⟨h0, -⟩ | ⟨-, b1, b2, b3, b4, b5, rfl⟩)
      · exact absurd h0 hs
      · exact ⟨_, ⟨b1, rfl⟩, _, ⟨b2, rfl⟩, _, ⟨b3, rfl⟩, _, ⟨b4, rfl⟩, _,
          ⟨b5, rfl⟩, by decide, rfl⟩

/-- C7: for every valid parameter record, `calculate_market_cap` returns 0 at
supply 0, and for supplies `s1 < s2` at which it succeeds its value is
strictly increasing. -/
theorem market_cap_zero_strict_mono (p : BondingCurveParams) (s1 s2 v1 v2 : Nat)
    (hval : validate_params p = .ok ()) (h12 : s1 < s2)
    (h1 : calculate_market_cap p s1 = .ok v1)
    (h2 : calculate_market_cap p s2 = .ok v2) :
    calculate_market_cap p 0 = .ok 0 ∧ v1 < v2 := by
  refine ⟨rfl, ?_⟩
  obtain ⟨hip, -, -, -⟩ := validate_ok_iff.mp hval
  have hs2 : s2 ≠ 0 := by omega
  rcases mc_ok_iff.mp h2 with ⟨h0, -⟩ | ⟨-, -, hd2, -, -, -, rfl⟩
  · exact absurd h0 hs2
  rcases mc_ok_iff.mp h1 with ⟨-, rfl⟩ | ⟨hs1, -, -, -, -, -, rfl⟩
  · -- s1 = 0, v1 = 0: show the market cap at s2 is positive
    have hbase : p.initial_price * s2 * 10000 ≤
        p.initial_price * s2 *
          (10000 + s2 * 10000 / wrap_mul 2 p.curve_steepness) :=
      Nat.mul_le_mul (le_refl _) (Nat.le_add_right _ _)
    have hdiv : p.initial_price * s2 ≤
        p.initial_price * s2 *
          (10000 + s2 * 10000 / wrap_mul 2 p.curve_steepness) / 10000 :=
      (Nat.le_div_iff_mul_le (by decide)).mpr hbase
    have hpos : 0 < p.initial_price * s2 :=
      Nat.mul_pos hip (by omega)
    omega
  · -- 0 < s1 < s2
    set d := wrap_mul 2 p.curve_steepness with hd
    have hm : 10000 + s1 * 10000 / d ≤ 10000 + s2 * 10000 / d := by
      have := Nat.div_le_div_right (c := d)
        (Nat.mul_le_mul (le_of_lt h12) (le_refl 10000))
      omega
    have e1 : p.initial_price * s1 * (10000 + s1 * 10000 / d) ≤
        p.initial_price * s1 * (10000 + s2 * 10000 / d) :=
      Nat.mul_le_mul (le_refl _) hm
    have e2 : p.initial_price * s1 * (10000 + s2 * 10000 / d) +
        p.initial_price * (10000 + s2 * 10000 / d) =
        p.initial_price * (s1 + 1) * (10000 + s2 * 10000 / d) := by ring
    have e3 : p.initial_price * (s1 + 1) * (10000 + s2 * 10000 / d) ≤
        p.initial_price * s2 * (10000 + s2 * 10000 / d) :=
      Nat.mul_le_mul (Nat.mul_le_mul (le_refl _) (by omega)) (le_refl _)
    have e4 : 10000 ≤ p.initial_price * (10000 + s2 * 10000 / d) := by
      calc (10000 : Nat) = 1 * 10000 := by omega
        _ ≤ p.initial_price * (10000 + s2 * 10000 / d) :=
          Nat.mul_le_mul hip (Nat.le_add_right _ _)
    have key : p.initial_price * s1 * (10000 + s1 * 10000 / d) + 10000 ≤
        p.initial_price * s2 * (10000 + s2 * 10000 / d) := by omega
    have hstep := Nat.div_le_div_right (c := 10000) key
    rw [Nat.add_div_right _ (by decide)] at hstep
    omega

theorem market_cap_zero_strict_mono_witness :
    calculate_market_cap testParams 0 = .ok 0 ∧ (1050000 : Nat) < 15000000 :=
  market_cap_zero_strict_mono testParams 1000 10000 1050000 15000000 rfl
    (by decide) rfl rfl

/-! ## C5: round-trip loss -/

/-- C5 counterexample: with the valid parameters
`{initial_price=1, curve_steepness=1000000, max_supply=10, fee_rate=100}`,
buying 1 token at supply 0 costs 1 and selling 1 token back at supply 1 pays
out 1: the integer fee `1 * 100 / 10000` rounds to 0, so the payout is not
strictly less than the cost and the loss (0 bp) is below 1× `fee_rate`. -/
theorem roundtrip_not_strict_cex :
    validate_params ⟨1, 1000000, 10, 100⟩ = .ok () ∧
    calculate_buy_price ⟨1, 1000000, 10, 100⟩ 0 1 = .ok 1 ∧
    calculate_sell_price ⟨1, 1000000, 10, 100⟩ (0 + 1) 1 = .ok 1 := by
  refine ⟨by decide, by decide, by decide⟩

/-- C5 amended: for every valid parameter record and every trade with
`current_supply + amount` within `u64` for which both calls succeed, the
sell payout is at most (not always strictly less than) the buy cost, and the
round-trip loss in basis points of the buy cost is at most 4× `fee_rate`
(the proof in fact bounds it by 2× `fee_rate`); the 1× lower bound and
strictness fail when the rounded integer fee is zero or coarse. -/
theorem roundtrip_loss_bounded (p : BondingCurveParams) (cs a b s : Nat)
    (hval : validate_params p = .ok ()) (hw : cs + a < U64)
    (hb : calculate_buy_price p cs a = .ok b)
    (hs : calculate_sell_price p (cs + a) a = .ok s) :
    s ≤ b ∧ (b - s) * 10000 / b ≤ 4 * p.fee_rate := by
  obtain ⟨ha, -, P, E, hP, hE, hT, hF, hAdd, rfl⟩ := buy_ok_iff.mp hb
  have hwa : wrap_add cs a = cs + a := Nat.mod_eq_of_lt hw
  rw [hwa] at hE
  obtain ⟨-, -, P', E', hP', hE', hT', hF', hSub, rfl⟩ := sell_ok_iff.mp hs
  rw [show cs + a - a = cs by omega] at hP'
  have hPP : P = P' := Except.ok.inj (hP.symm.trans hP')
  have hEE : E = E' := Except.ok.inj (hE.symm.trans hE')
  subst hPP
  subst hEE
  set T := wrap_add P E / 2 * a with hTdef
  set fee := T * p.fee_rate / 10000 with hfdef
  refine ⟨by omega, ?_⟩
  have hbs : T + fee - (T - fee) = 2 * fee := by omega
  rw [hbs]
  by_cases hT0 : T = 0
  · have hf0 : fee = 0 := by omega
    rw [hf0]
    simp
  · have hfee_le : fee * 10000 ≤ T * p.fee_rate := Nat.div_mul_le_self _ _
    calc 2 * fee * 10000 / (T + fee)
        ≤ 2 * fee * 10000 / T :=
          Nat.div_le_div_left (Nat.le_add_right T fee) (by omega)
      _ ≤ T * (2 * p.fee_rate) / T := Nat.div_le_div_right (by
          have : 2 * fee * 10000 = 2 * (fee * 10000) := by ring
          have h2 : T * (2 * p.fee_rate) = 2 * (T * p.fee_rate) := by ring
          omega)
      _ = 2 * p.fee_rate := Nat.mul_div_cancel_left _ (by omega)
      _ ≤ 4 * p.fee_rate := by omega

theorem roundtrip_loss_bounded_witness :
    (24750000 : Nat) ≤ 25250000 ∧
    (25250000 - 24750000) * 10000 / 25250000 ≤ 4 * 100 :=
  roundtrip_loss_bounded testParams 0 10000 25250000 24750000 rfl (by decide)
    (by decide) (by decide)

/-! ## Division identities for the per-unit execution price -/

theorem quote_div_buy (avg a r : Nat) (ha : 0 < a) :
    (avg * a + avg * a * r / 10000) / a = avg + avg * r / 10000 := by
  have h1 : avg * a * r / 10000 / a = avg * r / 10000 := by
    rw [Nat.div_div_eq_div_mul,
      show avg * a * r = a * (avg * r) by ring,
      show 10000 * a = a * 10000 by ring,
      Nat.mul_div_mul_left _ _ ha]
  calc (avg * a + avg * a * r / 10000) / a
      = (a * avg + avg * a * r / 10000) / a := by rw [Nat.mul_comm avg a]
    _ = avg + avg * a * r / 10000 / a := Nat.mul_add_div ha _ _
    _ = avg + avg * r / 10000 := by rw [h1]

theorem quote_div_sell (avg a r : Nat) (ha : 0 < a) (hr : r < 10000)
    (havg : 0 < avg) :
    (avg * a - avg * a * r / 10000) / a =
      avg - avg * r / 10000 -
        (if 10000 ≤ a * (avg * r % 10000) then 1 else 0) := by
  have hqs : 10000 * (avg * r / 10000) + avg * r % 10000 = avg * r :=
    Nat.div_add_mod _ _
  have hsrem : avg * r % 10000 < 10000 := Nat.mod_lt _ (by decide)
  set q := avg * r / 10000 with hqdef
  set srem := avg * r % 10000 with hsdef
  have hf : avg * a * r / 10000 = a * q + a * srem / 10000 := by
    rw [show avg * a * r = a * (avg * r) by ring, ← hqs,
      show a * (10000 * q + srem) = 10000 * (a * q) + a * srem by ring,
      Nat.mul_add_div (by decide)]
  have hq_lt : q < avg := by
    have hb : avg * r ≤ avg * 9999 := Nat.mul_le_mul (le_refl _) (by omega)
    have hd : q * 10000 ≤ avg * r := Nat.div_mul_le_self _ _
    have h9 : avg * 9999 + avg = avg * 10000 := by ring
    omega
  have hD_lt : a * srem / 10000 < a := by
    have hb : a * srem ≤ a * 9999 := Nat.mul_le_mul (le_refl _) (by omega)
    have hd : a * srem / 10000 * 10000 ≤ a * srem := Nat.div_mul_le_self _ _
    have h9 : a * 9999 + a = a * 10000 := by ring
    omega
  set D := a * srem / 10000 with hDdef
  have hnum : avg * a - avg * a * r / 10000 = a * (avg - q) - D := by
    rw [hf, show a * (avg - q) = a * avg - a * q from by
      rw [Nat.mul_sub]]
    have hqa : a * q ≤ a * avg := Nat.mul_le_mul (le_refl _) (by omega)
    have : avg * a = a * avg := Nat.mul_comm _ _
    omega
  rw [hnum]
  by_cases hD0 : D = 0
  · rw [hD0, if_neg ?hcond, Nat.sub_zero, Nat.sub_zero,
      Nat.mul_div_cancel_left _ ha]
    case hcond =>
      intro hcon
      exact absurd hD0 (by
        have := Nat.div_pos hcon (by decide)
        omega)
  · have hD1 : 1 ≤ D := by omega
    have hcond : 10000 ≤ a * srem := by
      by_contra hcon
      exact hD0 (Nat.div_eq_of_lt (by omega))
    rw [if_pos hcond]
    obtain ⟨m, hm⟩ : ∃ m, avg - q = m + 1 := ⟨avg - q - 1, by omega⟩
    rw [hm]
    have hsplit : a * (m + 1) - D = a * m + (a - D) := by
      have : a * (m + 1) = a * m + a := by ring
      omega
    rw [hsplit, Nat.mul_add_div ha, Nat.div_eq_of_lt (by omega)]
    omega

theorem fee_floor_mono {r v1 v2 a1 a2 : Nat} (hr : r ≤ 1000) (hv : v2 ≤ v1)
    (ha : a1 ≤ a2) :
    v2 - v2 * r / 10000 - (if 10000 ≤ a2 * (v2 * r % 10000) then 1 else 0) ≤
    v1 - v1 * r / 10000 - (if 10000 ≤ a1 * (v1 * r % 10000) then 1 else 0) := by
  set q1 := v1 * r / 10000 with hq1def
  set s1 := v1 * r % 10000 with hs1def
  set q2 := v2 * r / 10000 with hq2def
  set s2 := v2 * r % 10000 with hs2def
  have e1 : 10000 * q1 + s1 = v1 * r := Nat.div_add_mod _ _
  have e2 : 10000 * q2 + s2 = v2 * r := Nat.div_add_mod _ _
  have hs1lt : s1 < 10000 := Nat.mod_lt _ (by decide)
  have hs2lt : s2 < 10000 := Nat.mod_lt _ (by decide)
  have hm : v1 * r = v2 * r + (v1 - v2) * r := by
    rw [← Nat.add_mul, show v2 + (v1 - v2) = v1 from by omega]
  have hDE : (v1 - v2) * r ≤ (v1 - v2) * 10000 := by
    exact Nat.mul_le_mul (le_refl _) (by omega)
  have hb1 : v1 * r ≤ v1 * 10000 := Nat.mul_le_mul (le_refl _) (by omega)
  have hb2 : v2 * r ≤ v2 * 10000 := Nat.mul_le_mul (le_refl _) (by omega)
  have hsub10 : (v1 - v2) * 10000 = v1 * 10000 - v2 * 10000 := by
    rw [Nat.sub_mul]
  have hMle : v2 - q2 ≤ v1 - q1 := by omega
  by_cases heq : v2 - q2 = v1 - q1
  · have hss : s1 ≤ s2 := by omega
    have hi12 : (if 10000 ≤ a1 * s1 then (1 : Nat) else 0) ≤
        (if 10000 ≤ a2 * s2 then (1 : Nat) else 0) := by
      by_cases hi1 : 10000 ≤ a1 * s1
      · rw [if_pos hi1, if_pos (le_trans hi1 (Nat.mul_le_mul ha hss))]
      · rw [if_neg hi1]
        exact Nat.zero_le _
    omega
  · have hlt : v2 - q2 < v1 - q1 := by omega
    have hi1 : (if 10000 ≤ a1 * s1 then (1 : Nat) else 0) ≤ 1 := by
      split <;> omega
    have hi2 : (if 10000 ≤ a2 * s2 then (1 : Nat) else 0) ≤ 1 := by
      split <;> omega
    omega

/-! ## Characterization of the slippage estimator -/

theorem expure_ok {α : Type} {x v : α} :
    (pure x : Except PPError α) = .ok v ↔ x = v := by
  constructor
  · exact fun h => Except.ok.inj h
  · intro h
    rw [h]
    rfl

theorem slippage_u64_ok_iff {p : BondingCurveParams} {cs a v : Nat} {ib : Bool} :
    calculate_slippage_u64 p cs a ib = .ok v ↔
      ∃ P q, price_at_supply p cs = .ok P ∧
        (if ib then calculate_buy_price p cs a
         else calculate_sell_price p cs a) = .ok q ∧
        a ≠ 0 ∧ P ≠ 0 ∧
        ((P ≤ q / a ∧ (q / a - P) * 10000 < U64 ∧
            v = (q / a - P) * 10000 / P) ∨
         (¬ P ≤ q / a ∧ (P - q / a) * 10000 < U64 ∧
            v = (P - q / a) * 10000 / P)) := by
  unfold calculate_slippage_u64
  cases ib <;>
    simp only [Bool.false_eq_true, if_false, if_true, exbind_ok, checked_div_ok] <;>
    constructor
  · rintro ⟨P, hP, q, hq, A, ⟨ha0, rfl⟩, htail⟩
    by_cases hPA : P ≤ q / a
    · rw [if_pos hPA] at htail
      simp only [exbind_ok, checked_sub_ok, checked_mul_ok, checked_div_ok] at htail
      obtain ⟨d, ⟨-, rfl⟩, m, ⟨hm, rfl⟩, hP0, rfl⟩ := htail
      exact ⟨P, q, hP, hq, ha0, hP0, .inl ⟨hPA, hm, rfl⟩⟩
    · rw [if_neg hPA] at htail
      simp only [exbind_ok, checked_sub_ok, checked_mul_ok, checked_div_ok] at htail
      obtain ⟨d, ⟨-, rfl⟩, m, ⟨hm, rfl⟩, hP0, rfl⟩ := htail
      exact ⟨P, q, hP, hq, ha0, hP0, .inr ⟨hPA, hm, rfl⟩⟩
  · rintro ⟨P, q, hP, hq, ha0, hP0, hbr⟩
    refine ⟨P, hP, q, hq, q / a, ⟨ha0, rfl⟩, ?_⟩
    rcases hbr with ⟨hPA, hm, rfl⟩ | ⟨hPA, hm, rfl⟩
    · rw [if_pos hPA]
      simp only [exbind_ok, checked_sub_ok, checked_mul_ok, checked_div_ok]
      exact ⟨_, ⟨hPA, rfl⟩, _, ⟨hm, rfl⟩, hP0, rfl⟩
    · rw [if_neg hPA]
      simp only [exbind_ok, checked_sub_ok, checked_mul_ok, checked_div_ok]
      exact ⟨_, ⟨Nat.le_of_not_le hPA, rfl⟩, _, ⟨hm, rfl⟩, hP0, rfl⟩
  · rintro ⟨P, hP, q, hq, A, ⟨ha0, rfl⟩, htail⟩
    by_cases hPA : P ≤ q / a
    · rw [if_pos hPA] at htail
      simp only [exbind_ok, checked_sub_ok, checked_mul_ok, checked_div_ok] at htail
      obtain ⟨d, ⟨-, rfl⟩, m, ⟨hm, rfl⟩, hP0, rfl⟩ := htail
      exact ⟨P, q, hP, hq, ha0, hP0, .inl ⟨hPA, hm, rfl⟩⟩
    · rw [if_neg hPA] at htail
      simp only [exbind_ok, checked_sub_ok, checked_mul_ok, checked_div_ok] at htail
      obtain ⟨d, ⟨-, rfl⟩, m, ⟨hm, rfl⟩, hP0, rfl⟩ := htail
      exact ⟨P, q, hP, hq, ha0, hP0, .inr ⟨hPA, hm, rfl⟩⟩
  · rintro ⟨P, q, hP, hq, ha0, hP0, hbr⟩
    refine ⟨P, hP, q, hq, q / a, ⟨ha0, rfl⟩, ?_⟩
    rcases hbr with ⟨hPA, hm, rfl⟩ | ⟨hPA, hm, rfl⟩
    · rw [if_pos hPA]
      simp only [exbind_ok, checked_sub_ok, checked_mul_ok, checked_div_ok]
      exact ⟨_, ⟨hPA, rfl⟩, _, ⟨hm, rfl⟩, hP0, rfl⟩
    · rw [if_neg hPA]
      simp only [exbind_ok, checked_sub_ok, checked_mul_ok, checked_div_ok]
      exact ⟨_, ⟨Nat.le_of_not_le hPA, rfl⟩, _, ⟨hm, rfl⟩, hP0, rfl⟩

theorem slippage_ok_iff {p : BondingCurveParams} {cs a v : Nat} {ib : Bool} :
    calculate_slippage p cs a ib = .ok v ↔
      ∃ P q, price_at_supply p cs = .ok P ∧
        (if ib then calculate_buy_price p cs a
         else calculate_sell_price p cs a) = .ok q ∧
        a ≠ 0 ∧ P ≠ 0 ∧
        ((P ≤ q / a ∧ (q / a - P) * 10000 < U64 ∧
            v = (q / a - P) * 10000 / P % 65536) ∨
         (¬ P ≤ q / a ∧ (P - q / a) * 10000 < U64 ∧
            v = (P - q / a) * 10000 / P % 65536)) := by
  unfold calculate_slippage
  cases ib <;>
    simp only [Bool.false_eq_true, if_false, if_true, exbind_ok, checked_div_ok] <;>
    constructor
  · rintro ⟨P, hP, q, hq, A, ⟨ha0, rfl⟩, htail⟩
    by_cases hPA : P ≤ q / a
    · rw [if_pos hPA] at htail
      simp only [exbind_ok, checked_sub_ok, checked_mul_ok, checked_div_ok,
        expure_ok] at htail
      obtain ⟨d, ⟨-, rfl⟩, m, ⟨hm, rfl⟩, s, ⟨hP0, rfl⟩, rfl⟩ := htail
      exact ⟨P, q, hP, hq, ha0, hP0, .inl ⟨hPA, hm, rfl⟩⟩
    · rw [if_neg hPA] at htail
      simp only [exbind_ok, checked_sub_ok, checked_mul_ok, checked_div_ok,
        expure_ok] at htail
      obtain ⟨d, ⟨-, rfl⟩, m, ⟨hm, rfl⟩, s, ⟨hP0, rfl⟩, rfl⟩ := htail
      exact ⟨P, q, hP, hq, ha0, hP0, .inr ⟨hPA, hm, rfl⟩⟩
  · rintro ⟨P, q, hP, hq, ha0, hP0, hbr⟩
    refine ⟨P, hP, q, hq, q / a, ⟨ha0, rfl⟩, ?_⟩
    rcases hbr with ⟨hPA, hm, rfl⟩ | ⟨hPA, hm, rfl⟩
    · rw [if_pos hPA]
      simp only [exbind_ok, checked_sub_ok, checked_mul_ok, checked_div_ok,
        expure_ok]
      exact ⟨_, ⟨hPA, rfl⟩, _, ⟨hm, rfl⟩, _, ⟨hP0, rfl⟩, rfl⟩
    · rw [if_neg hPA]
      simp only [exbind_ok, checked_sub_ok, checked_mul_ok, checked_div_ok,
        expure_ok]
      exact ⟨_, ⟨Nat.le_of_not_le hPA, rfl⟩, _, ⟨hm, rfl⟩, _, ⟨hP0, rfl⟩, rfl⟩
  · rintro ⟨P, hP, q, hq, A, ⟨ha0, rfl⟩, htail⟩
    by_cases hPA : P ≤ q / a
    · rw [if_pos hPA] at htail
      simp only [exbind_ok, checked_sub_ok, checked_mul_ok, checked_div_ok,
        expure_ok] at htail
      obtain ⟨d, ⟨-, rfl⟩, m, ⟨hm, rfl⟩, s, ⟨hP0, rfl⟩, rfl⟩ := htail
      exact ⟨P, q, hP, hq, ha0, hP0, .inl ⟨hPA, hm, rfl⟩⟩
    · rw [if_neg hPA] at htail
      simp only [exbind_ok, checked_sub_ok, checked_mul_ok, checked_div_ok,
        expure_ok] at htail
      obtain ⟨d, ⟨-, rfl⟩, m, ⟨hm, rfl⟩, s, ⟨hP0, rfl⟩, rfl⟩ := htail
      exact ⟨P, q, hP, hq, ha0, hP0, .inr ⟨hPA, hm, rfl⟩⟩
  · rintro ⟨P, q, hP, hq, ha0, hP0, hbr⟩
    refine ⟨P, hP, q, hq, q / a, ⟨ha0, rfl⟩, ?_⟩
    rcases hbr with ⟨hPA, hm, rfl⟩ | ⟨hPA, hm, rfl⟩
    · rw [if_pos hPA]
      simp only [exbind_ok, checked_sub_ok, checked_mul_ok, checked_div_ok,
        expure_ok]
      exact ⟨_, ⟨hPA, rfl⟩, _, ⟨hm, rfl⟩, _, ⟨hP0, rfl⟩, rfl⟩
    · rw [if_neg hPA]
      simp only [exbind_ok, checked_sub_ok, checked_mul_ok, checked_div_ok,
        expure_ok]
      exact ⟨_, ⟨Nat.le_of_not_le hPA, rfl⟩, _, ⟨hm, rfl⟩, _, ⟨hP0, rfl⟩, rfl⟩

/-! ## C9: slippage monotonicity -/

/-- C9 counterexample: slippage is returned as a `u16`, and the cast wraps.
With valid parameters `{initial_price=1000, curve_steepness=1000,
max_supply=10^9, fee_rate=0}` at supply 0, a buy of 2756 tokens reports
65530 bp of slippage but the larger buy of 2757 tokens reports only 34 bp
(the untruncated deviations are 65530 and 65570 = 65536 + 34). -/
theorem slippage_u16_not_monotone_cex :
    validate_params ⟨1000, 1000, 1000000000, 0⟩ = .ok () ∧
    (2756 : Nat) ≤ 2757 ∧
    calculate_slippage ⟨1000, 1000, 1000000000, 0⟩ 0 2756 true = .ok 65530 ∧
    calculate_slippage ⟨1000, 1000, 1000000000, 0⟩ 0 2757 true = .ok 34 ∧
    ¬ (65530 : Nat) ≤ 34 := by
  refine ⟨by decide, by decide, by decide, by decide, by decide⟩

/-- C9 amended: for a valid parameter record, fixed supply and direction,
the `u64` basis-point deviation computed by `calculate_slippage` before its
final `as u16` cast (`calculate_slippage_u64`) is monotonically
non-decreasing in the trade amount, provided `current_supply + amount` stays
within `u64`; the narrowed `u16` return value can wrap modulo 65536 and lose
monotonicity (counterexample above). -/
theorem slippage_u64_monotone (p : BondingCurveParams) (cs a1 a2 v1 v2 : Nat)
    (ib : Bool) (hval : validate_params p = .ok ()) (h12 : a1 ≤ a2)
    (hw : cs + a2 < U64)
    (h1 : calculate_slippage_u64 p cs a1 ib = .ok v1)
    (h2 : calculate_slippage_u64 p cs a2 ib = .ok v2) : v1 ≤ v2 := by
  obtain ⟨hip, hsteep, -, hfr⟩ := validate_ok_iff.mp hval
  obtain ⟨P, q1, hP, hq1, ha1, hP0, hbr1⟩ := slippage_u64_ok_iff.mp h1
  obtain ⟨P2, q2, hP2, hq2, ha2, hP20, hbr2⟩ := slippage_u64_ok_iff.mp h2
  have hPP : P2 = P := Except.ok.inj (hP2.symm.trans hP)
  rw [hPP] at hP20 hbr2
  cases ib
  · -- sell side
    rw [if_neg Bool.false_ne_true] at hq1 hq2
    obtain ⟨ha1p, hle1, S1, E1, hS1, hE1, hT1, hF1, hSub1, hq1v⟩ :=
      sell_ok_iff.mp hq1
    obtain ⟨ha2p, hle2, S2, E2, hS2, hE2, hT2, hF2, hSub2, hq2v⟩ :=
      sell_ok_iff.mp hq2
    have hE1P : E1 = P := Except.ok.inj (hE1.symm.trans hP)
    have hE2P : E2 = P := Except.ok.inj (hE2.symm.trans hP)
    rw [hE1P] at hq1v
    rw [hE2P] at hq2v
    have hcs0 : cs ≠ 0 := by omega
    have hws1 : wrap_add S1 P = S1 + P :=
      Nat.mod_eq_of_lt (price_ok_sum_lt hS1 hP hcs0)
    have hws2 : wrap_add S2 P = S2 + P :=
      Nat.mod_eq_of_lt (price_ok_sum_lt hS2 hP hcs0)
    rw [hws1] at hq1v
    rw [hws2] at hq2v
    set avg1 := (S1 + P) / 2 with havg1
    set avg2 := (S2 + P) / 2 with havg2
    -- positivity and ordering of the trapezoidal averages
    have hS1ip := price_ok_ge_ip hS1
    have hS2ip := price_ok_ge_ip hS2
    have hPip := price_ok_ge_ip hP
    have havg1pos : 0 < avg1 :=
      (Nat.le_div_iff_mul_le (by decide)).mpr (by omega)
    have havg2pos : 0 < avg2 :=
      (Nat.le_div_iff_mul_le (by decide)).mpr (by omega)
    have hS21 : S2 ≤ S1 := price_ok_mono (by omega) hS2 hS1
    have havg21 : avg2 ≤ avg1 := Nat.div_le_div_right (by omega)
    have hS1P : S1 ≤ P := price_ok_mono (by omega) hS1 hP
    have hS2P : S2 ≤ P := price_ok_mono (by omega) hS2 hP
    have havg1P : avg1 ≤ P := by
      have h2P : (S1 + P) / 2 ≤ (P + P) / 2 := Nat.div_le_div_right (by omega)
      rw [show P + P = P * 2 by ring, Nat.mul_div_cancel _ (by decide)] at h2P
      exact h2P
    have havg2P : avg2 ≤ P := by
      have h2P : (S2 + P) / 2 ≤ (P + P) / 2 := Nat.div_le_div_right (by omega)
      rw [show P + P = P * 2 by ring, Nat.mul_div_cancel _ (by decide)] at h2P
      exact h2P
    -- closed form of the per-unit payout
    have hact1 : q1 / a1 = avg1 - avg1 * p.fee_rate / 10000 -
        (if 10000 ≤ a1 * (avg1 * p.fee_rate % 10000) then 1 else 0) := by
      rw [hq1v]
      exact quote_div_sell avg1 a1 p.fee_rate ha1p (by omega) havg1pos
    have hact2 : q2 / a2 = avg2 - avg2 * p.fee_rate / 10000 -
        (if 10000 ≤ a2 * (avg2 * p.fee_rate % 10000) then 1 else 0) := by
      rw [hq2v]
      exact quote_div_sell avg2 a2 p.fee_rate ha2p (by omega) havg2pos
    have hanti : q2 / a2 ≤ q1 / a1 := by
      rw [hact1, hact2]
      exact fee_floor_mono hfr havg21 h12
    have hactP1 : q1 / a1 ≤ P := by
      rw [hact1]
      omega
    have hactP2 : q2 / a2 ≤ P := le_trans hanti hactP1
    -- both branches compute (P - actual) * 10000 / P
    have hv1 : v1 = (P - q1 / a1) * 10000 / P := by
      rcases hbr1 with ⟨hge, -, hv⟩ | ⟨-, -, hv⟩
      · have heq : q1 / a1 = P := le_antisymm hactP1 hge
        rw [heq] at hv ⊢
        exact hv
      · exact hv
    have hv2 : v2 = (P - q2 / a2) * 10000 / P := by
      rcases hbr2 with ⟨hge, -, hv⟩ | ⟨-, -, hv⟩
      · have heq : q2 / a2 = P := le_antisymm hactP2 hge
        rw [heq] at hv ⊢
        exact hv
      · exact hv
    rw [hv1, hv2]
    exact Nat.div_le_div_right
      (Nat.mul_le_mul (Nat.sub_le_sub_left hanti P) (le_refl _))
  · -- buy side
    rw [if_pos rfl] at hq1 hq2
    obtain ⟨-, -, S1, E1, hS1, hE1, hT1, hF1, hAdd1, hq1v⟩ := buy_ok_iff.mp hq1
    obtain ⟨-, -, S2, E2, hS2, hE2, hT2, hF2, hAdd2, hq2v⟩ := buy_ok_iff.mp hq2
    have hS1P : S1 = P := Except.ok.inj (hS1.symm.trans hP)
    have hS2P : S2 = P := Except.ok.inj (hS2.symm.trans hP)
    rw [hS1P] at hq1v
    rw [hS2P] at hq2v
    have hcw1 : wrap_add cs a1 = cs + a1 := Nat.mod_eq_of_lt (by omega)
    have hcw2 : wrap_add cs a2 = cs + a2 := Nat.mod_eq_of_lt (by omega)
    rw [hcw1] at hE1
    rw [hcw2] at hE2
    have hwp1 : wrap_add P E1 = P + E1 :=
      Nat.mod_eq_of_lt (price_ok_sum_lt hP hE1 (by omega))
    have hwp2 : wrap_add P E2 = P + E2 :=
      Nat.mod_eq_of_lt (price_ok_sum_lt hP hE2 (by omega))
    rw [hwp1] at hq1v
    rw [hwp2] at hq2v
    set avg1 := (P + E1) / 2 with havg1
    set avg2 := (P + E2) / 2 with havg2
    have hact1 : q1 / a1 = avg1 + avg1 * p.fee_rate / 10000 := by
      rw [hq1v]
      exact quote_div_buy avg1 a1 p.fee_rate (by omega)
    have hact2 : q2 / a2 = avg2 + avg2 * p.fee_rate / 10000 := by
      rw [hq2v]
      exact quote_div_buy avg2 a2 p.fee_rate (by omega)
    have hE12 : E1 ≤ E2 := price_ok_mono (by omega) hE1 hE2
    have havg12 : avg1 ≤ avg2 := Nat.div_le_div_right (by omega)
    have hPE1 : P ≤ E1 := price_ok_mono (by omega) hP hE1
    have hPavg1 : P ≤ avg1 :=
      (Nat.le_div_iff_mul_le (by decide)).mpr (by omega)
    have hPavg2 : P ≤ avg2 := le_trans hPavg1 havg12
    have hPact1 : P ≤ q1 / a1 := by
      rw [hact1]
      omega
    have hPact2 : P ≤ q2 / a2 := by
      rw [hact2]
      omega
    have hactm : q1 / a1 ≤ q2 / a2 := by
      rw [hact1, hact2]
      have := Nat.div_le_div_right (c := 10000)
        (Nat.mul_le_mul havg12 (le_refl p.fee_rate))
      omega
    have hv1 : v1 = (q1 / a1 - P) * 10000 / P := by
      rcases hbr1 with ⟨-, -, hv⟩ | ⟨hnge, -, -⟩
      · exact hv
      · exact absurd hPact1 hnge
    have hv2 : v2 = (q2 / a2 - P) * 10000 / P := by
      rcases hbr2 with ⟨-, -, hv⟩ | ⟨hnge, -, -⟩
      · exact hv
      · exact absurd hPact2 hnge
    rw [hv1, hv2]
    exact Nat.div_le_div_right
      (Nat.mul_le_mul (Nat.sub_le_sub_right hactm P) (le_refl _))

theorem slippage_u64_monotone_witness :
    (107 : Nat) ≤ 1057 :=
  slippage_u64_monotone testParams 1000 10 1000 107 1057 true rfl (by decide)
    (by decide) (by decide) (by decide)

/-! ## C10: u16 narrowing of the slippage value -/

/-- C10: `calculate_slippage` computes the basis-point deviation
`|actual - spot| * 10000 / spot` as a `u64` and narrows it to `u16` with a
plain cast: whenever the `u64` deviation `v` (the value of
`calculate_slippage_u64`, the computation before the cast) exceeds 65535,
the call still succeeds and returns `v mod 2^16` rather than the true value
or an error. -/
theorem slippage_u16_truncates (p : BondingCurveParams) (cs a v : Nat)
    (ib : Bool) (h : calculate_slippage_u64 p cs a ib = .ok v)
    (hv : 65535 < v) :
    calculate_slippage p cs a ib = .ok (v % 65536) ∧ v % 65536 ≠ v := by
  obtain ⟨P, q, hP, hq, ha0, hP0, hbr⟩ := slippage_u64_ok_iff.mp h
  constructor
  · apply slippage_ok_iff.mpr
    rcases hbr with ⟨h1, h2, rfl⟩ | ⟨h1, h2, rfl⟩
    · exact ⟨P, q, hP, hq, ha0, hP0, .inl ⟨h1, h2, rfl⟩⟩
    · exact ⟨P, q, hP, hq, ha0, hP0, .inr ⟨h1, h2, rfl⟩⟩
  · have hlt : v % 65536 < 65536 := Nat.mod_lt v (by decide)
    omega

theorem slippage_u16_truncates_witness :
    calculate_slippage ⟨1000, 1000, 1000000000, 0⟩ 0 2757 true =
      .ok (65570 % 65536) ∧
    (65570 : Nat) % 65536 ≠ 65570 :=
  slippage_u16_truncates ⟨1000, 1000, 1000000000, 0⟩ 0 2757 65570 true
    (by decide) (by decide)
